import Mathlib

/-!
Verification of the Christmas_Tree repository (an interactive 3D greeting-card
web application) against its natural-language specification.

The development shallowly embeds the claim-relevant parts of the TypeScript
source in Lean 4: JavaScript numbers are modelled as real numbers, objects as
structures, early-return cascades as if-then-else cascades, and the
per-frame / per-step callbacks as explicit state-transition functions.
-/

open Real

set_option maxHeartbeats 1000000

/-! ### Easing functions

`AnimationEasing` is the union type of easing names from `types.ts`.
The four particle components SpiralRibbon, FairyLights (`FairyLights.tsx`
lines 8-24), GiftPile (`GiftPile.tsx` lines 8-24) and PhotoOrnaments
(`PhotoOrnaments.tsx` lines 13-29) each define their own `easingFunctions`
record; each is embedded separately below, faithful to its own file.
`Math.pow(x, 3)` is modelled as `x ^ (3 : ℕ)` and `Math.pow(2, y)` as the
real power `(2 : ℝ) ^ (y : ℝ)`. -/

inductive AnimationEasing where
  | linear
  | easeIn
  | easeOut
  | easeInOut
  | bounce
  | elastic
  deriving DecidableEq, Repr

open AnimationEasing in
/-- The `easingFunctions` record of the SpiralRibbon component
(`SpiralRibbon.tsx` lines 8-24). In `bounce`, the JS statements
`t -= c; return n1 * t * t + b` are written with the shifted argument
substituted. -/
noncomputable def easingFunctionsSpiralRibbon : AnimationEasing → ℝ → ℝ
  | linear => fun t => t
  | easeIn => fun t => t * t * t
  | easeOut => fun t => 1 - (1 - t) ^ 3
  | easeInOut => fun t =>
      if t < 0.5 then 4 * t * t * t else 1 - (-2 * t + 2) ^ 3 / 2
  | bounce => fun t =>
      let n1 : ℝ := 7.5625
      let d1 : ℝ := 2.75
      if t < 1 / d1 then n1 * t * t
      else if t < 2 / d1 then n1 * (t - 1.5 / d1) * (t - 1.5 / d1) + 0.75
      else if t < 2.5 / d1 then n1 * (t - 2.25 / d1) * (t - 2.25 / d1) + 0.9375
      else n1 * (t - 2.625 / d1) * (t - 2.625 / d1) + 0.984375
  | elastic => fun t =>
      if t = 0 ∨ t = 1 then t
      else (2 : ℝ) ^ (-10 * t) * Real.sin ((t * 10 - 0.75) * (2 * π / 3)) + 1

open AnimationEasing in
/-- The `easingFunctions` record of the FairyLights component
(`FairyLights.tsx` lines 8-24). -/
noncomputable def easingFunctionsFairyLights : AnimationEasing → ℝ → ℝ
  | linear => fun t => t
  | easeIn => fun t => t * t * t
  | easeOut => fun t => 1 - (1 - t) ^ 3
  | easeInOut => fun t =>
      if t < 0.5 then 4 * t * t * t else 1 - (-2 * t + 2) ^ 3 / 2
  | bounce => fun t =>
      let n1 : ℝ := 7.5625
      let d1 : ℝ := 2.75
      if t < 1 / d1 then n1 * t * t
      else if t < 2 / d1 then n1 * (t - 1.5 / d1) * (t - 1.5 / d1) + 0.75
      else if t < 2.5 / d1 then n1 * (t - 2.25 / d1) * (t - 2.25 / d1) + 0.9375
      else n1 * (t - 2.625 / d1) * (t - 2.625 / d1) + 0.984375
  | elastic => fun t =>
      if t = 0 ∨ t = 1 then t
      else (2 : ℝ) ^ (-10 * t) * Real.sin ((t * 10 - 0.75) * (2 * π / 3)) + 1

open AnimationEasing in
/-- The `easingFunctions` record of the GiftPile component
(`GiftPile.tsx` lines 8-24). -/
noncomputable def easingFunctionsGiftPile : AnimationEasing → ℝ → ℝ
  | linear => fun t => t
  | easeIn => fun t => t * t * t
  | easeOut => fun t => 1 - (1 - t) ^ 3
  | easeInOut => fun t =>
      if t < 0.5 then 4 * t * t * t else 1 - (-2 * t + 2) ^ 3 / 2
  | bounce => fun t =>
      let n1 : ℝ := 7.5625
      let d1 : ℝ := 2.75
      if t < 1 / d1 then n1 * t * t
      else if t < 2 / d1 then n1 * (t - 1.5 / d1) * (t - 1.5 / d1) + 0.75
      else if t < 2.5 / d1 then n1 * (t - 2.25 / d1) * (t - 2.25 / d1) + 0.9375
      else n1 * (t - 2.625 / d1) * (t - 2.625 / d1) + 0.984375
  | elastic => fun t =>
      if t = 0 ∨ t = 1 then t
      else (2 : ℝ) ^ (-10 * t) * Real.sin ((t * 10 - 0.75) * (2 * π / 3)) + 1

open AnimationEasing in
/-- The `easingFunctions` record of the PhotoOrnaments component
(`PhotoOrnaments.tsx` lines 13-29). -/
noncomputable def easingFunctionsPhotoOrnaments : AnimationEasing → ℝ → ℝ
  | linear => fun t => t
  | easeIn => fun t => t * t * t
  | easeOut => fun t => 1 - (1 - t) ^ 3
  | easeInOut => fun t =>
      if t < 0.5 then 4 * t * t * t else 1 - (-2 * t + 2) ^ 3 / 2
  | bounce => fun t =>
      let n1 : ℝ := 7.5625
      let d1 : ℝ := 2.75
      if t < 1 / d1 then n1 * t * t
      else if t < 2 / d1 then n1 * (t - 1.5 / d1) * (t - 1.5 / d1) + 0.75
      else if t < 2.5 / d1 then n1 * (t - 2.25 / d1) * (t - 2.25 / d1) + 0.9375
      else n1 * (t - 2.625 / d1) * (t - 2.625 / d1) + 0.984375
  | elastic => fun t =>
      if t = 0 ∨ t = 1 then t
      else (2 : ℝ) ^ (-10 * t) * Real.sin ((t * 10 - 0.75) * (2 * π / 3)) + 1

open AnimationEasing in
/-- The GLSL `ease` functions injected into the Foliage shader material
(`Foliage.tsx`, the `easingFunctions` GLSL string table).  Identical to the
TypeScript table except that `elastic` uses the literal constant
`2.0943951` where the TypeScript writes `2 * Math.PI / 3`. -/
noncomputable def foliageEaseGLSL : AnimationEasing → ℝ → ℝ
  | linear => fun t => t
  | easeIn => fun t => t * t * t
  | easeOut => fun t => 1 - (1 - t) ^ 3
  | easeInOut => fun t =>
      if t < 0.5 then 4 * t * t * t else 1 - (-2 * t + 2) ^ 3 / 2
  | bounce => fun t =>
      let n1 : ℝ := 7.5625
      let d1 : ℝ := 2.75
      if t < 1 / d1 then n1 * t * t
      else if t < 2 / d1 then n1 * (t - 1.5 / d1) * (t - 1.5 / d1) + 0.75
      else if t < 2.5 / d1 then n1 * (t - 2.25 / d1) * (t - 2.25 / d1) + 0.9375
      else n1 * (t - 2.625 / d1) * (t - 2.625 / d1) + 0.984375
  | elastic => fun t =>
      if t = 0 ∨ t = 1 then t
      else (2 : ℝ) ^ (-10 * t) * Real.sin ((t * 10 - 0.75) * 2.0943951) + 1

/-- C1, counterexample.  The claim that all easing tables compute the same
value for every easing name and every `t ∈ [0,1]` is false: for `elastic`,
the TypeScript angular-frequency constant is `2π/3` while the GLSL shader
uses the truncated literal `2.0943951`, and the two functions differ
(already at `t = 0.15`, where the TypeScript argument is exactly `π/2`). -/
theorem C1_glsl_ts_elastic_differ :
    ¬ (∀ (e : AnimationEasing) (t : ℝ), 0 ≤ t → t ≤ 1 →
        easingFunctionsSpiralRibbon e t = easingFunctionsFairyLights e t ∧
        easingFunctionsSpiralRibbon e t = easingFunctionsGiftPile e t ∧
        easingFunctionsSpiralRibbon e t = easingFunctionsPhotoOrnaments e t ∧
        easingFunctionsSpiralRibbon e t = foliageEaseGLSL e t) := by
  intro h
  have h1 := (h AnimationEasing.elastic 0.15 (by norm_num) (by norm_num)).2.2.2
  have hne : ¬ ((0.15 : ℝ) = 0 ∨ (0.15 : ℝ) = 1) := by norm_num
  rw [show easingFunctionsSpiralRibbon AnimationEasing.elastic 0.15
        = (2 : ℝ) ^ (-10 * (0.15 : ℝ)) *
            Real.sin (((0.15 : ℝ) * 10 - 0.75) * (2 * π / 3)) + 1 from by
      simp only [easingFunctionsSpiralRibbon, if_neg hne],
     show foliageEaseGLSL AnimationEasing.elastic 0.15
        = (2 : ℝ) ^ (-10 * (0.15 : ℝ)) *
            Real.sin (((0.15 : ℝ) * 10 - 0.75) * 2.0943951) + 1 from by
      simp only [foliageEaseGLSL, if_neg hne]] at h1
  have harg : ((0.15 : ℝ) * 10 - 0.75) * (2 * π / 3) = π / 2 := by ring
  have hA : (0 : ℝ) < (2 : ℝ) ^ (-10 * (0.15 : ℝ)) :=
    Real.rpow_pos_of_pos (by norm_num) _
  rw [harg, Real.sin_pi_div_two] at h1
  have hsin : Real.sin (((0.15 : ℝ) * 10 - 0.75) * 2.0943951) = 1 := by
    have := mul_left_cancel₀ (ne_of_gt hA)
      (by linarith : (2 : ℝ) ^ (-10 * (0.15 : ℝ)) * 1
        = (2 : ℝ) ^ (-10 * (0.15 : ℝ)) *
            Real.sin (((0.15 : ℝ) * 10 - 0.75) * 2.0943951))
    linarith [this]
  rw [Real.sin_eq_one_iff] at hsin
  obtain ⟨k, hk⟩ := hsin
  have harg2 : ((0.15 : ℝ) * 10 - 0.75) * 2.0943951 = 1.570796325 := by norm_num
  rw [harg2] at hk
  have hπlo : (3.141592 : ℝ) < π := Real.pi_gt_d6
  have hπhi : π < 3.141593 := Real.pi_lt_d6
  rcases lt_trichotomy k 0 with hk0 | hk0 | hk0
  · have hk1 : (k : ℝ) ≤ -1 := by exact_mod_cast (by omega : k ≤ -1)
    have : (k : ℝ) * (2 * π) ≤ (-1) * (2 * π) :=
      mul_le_mul_of_nonneg_right hk1 (by linarith)
    linarith
  · subst hk0
    have hpi : π = 3.14159265 := by
      push_cast at hk
      linarith
    have hirr := irrational_pi
    rw [hpi] at hirr
    have hQ : ((3.14159265 : ℚ) : ℝ) = (3.14159265 : ℝ) := by norm_num
    rw [← hQ] at hirr
    exact Rat.not_irrational _ hirr
  · have hk1 : (1 : ℝ) ≤ (k : ℝ) := by exact_mod_cast (by omega : (1 : ℤ) ≤ k)
    have : (1 : ℝ) * (2 * π) ≤ (k : ℝ) * (2 * π) :=
      mul_le_mul_of_nonneg_right hk1 (by linarith)
    linarith

/-- C1, amended.  The four TypeScript easing tables (SpiralRibbon,
FairyLights, GiftPile, PhotoOrnaments) agree identically for every easing
name and every `t`, and the GLSL table used by the Foliage shader agrees
with them for every easing name other than `elastic`. -/
theorem C1_easing_tables_agree :
    ∀ (e : AnimationEasing) (t : ℝ),
      easingFunctionsSpiralRibbon e t = easingFunctionsFairyLights e t ∧
      easingFunctionsSpiralRibbon e t = easingFunctionsGiftPile e t ∧
      easingFunctionsSpiralRibbon e t = easingFunctionsPhotoOrnaments e t ∧
      (e ≠ AnimationEasing.elastic →
        easingFunctionsSpiralRibbon e t = foliageEaseGLSL e t) := by
  intro e t
  refine ⟨?_, ?_, ?_, ?_⟩ <;> cases e <;>
    first
      | rfl
      | (intro _; rfl)
      | (intro hne; exact absurd rfl hne)

/-- Witness for `C1_easing_tables_agree` at `e = linear`, `t = 1/2`. -/
theorem C1_easing_tables_agree_witness :
    AnimationEasing.linear ≠ AnimationEasing.elastic ∧
    easingFunctionsSpiralRibbon AnimationEasing.linear (1/2)
      = foliageEaseGLSL AnimationEasing.linear (1/2) :=
  ⟨by decide, (C1_easing_tables_agree AnimationEasing.linear (1/2)).2.2.2 (by decide)⟩

/-! ### Per-frame progress updates

`SceneState` models the scene state union type; the per-frame updaters only
test `state === 'FORMED'`.  Two update disciplines occur in the sources:
the duration-based clamped step of the Foliage component
(`Foliage.tsx` lines 483-497), and the exponential-approach step shared by
FairyLights (lines 131-157), GiftPile (lines 141-165) and PhotoOrnaments. -/

inductive SceneState where
  | FORMED
  | CHAOS
  deriving DecidableEq, Repr

/-- `state === 'FORMED' ? 1 : 0` (the per-frame target of the progress). -/
def targetProgress (state : SceneState) : ℝ :=
  if state = SceneState.FORMED then 1 else 0

/-- One `useFrame` progress update of the Foliage component
(`Foliage.tsx` lines 486-495): `duration = 1 / max(0.3, min(3, speed))`,
`step = delta / duration`, and the progress moves toward the target,
clamped so that it never passes it. -/
noncomputable def foliageProgressStep
    (state : SceneState) (speed delta current : ℝ) : ℝ :=
  let duration := 1 / max 0.3 (min 3 speed)
  let target := targetProgress state
  let step := delta / duration
  if target > current then min target (current + step)
  else if target < current then max target (current - step)
  else current

/-- One `useFrame` progress update of the FairyLights component
(`FairyLights.tsx` line 142; GiftPile line 151 and PhotoOrnaments line 181
are identical): `progress += (target - progress) * delta * animSpeed` with
`animSpeed = max(0.5, min(3, speed)) * 1.5`. -/
noncomputable def fairyLightsProgressStep
    (state : SceneState) (speed delta current : ℝ) : ℝ :=
  let animSpeed := max 0.5 (min 3 speed) * 1.5
  current + (targetProgress state - current) * delta * animSpeed

/-- `const rawT = Math.max(0, Math.min(1, progressRef.current))` — the
clamp applied to the stored progress before easing. -/
noncomputable def clamp01 (x : ℝ) : ℝ := max 0 (min 1 x)

/-- C4, counterexample.  The claim fails twice on the code.  First, the
FairyLights/GiftPile/PhotoOrnaments update is an exponential approach that
overshoots the target whenever `delta * animSpeed > 1`: from stored
progress `0` with state `FORMED` (target `1`), `speed = 1` and a frame
time `delta = 1` s, the stored progress becomes `1.5 > 1`.  Second, the
eased parameter is not confined to `[0,1]`: the `elastic` easing applied
to the in-range input `t = 0.2` yields `9/8 > 1`. -/
theorem C4_overshoot_counterexample :
    fairyLightsProgressStep SceneState.FORMED 1 1 0 = 1.5 ∧
    ¬ (fairyLightsProgressStep SceneState.FORMED 1 1 0 ≤ targetProgress SceneState.FORMED) ∧
    easingFunctionsFairyLights AnimationEasing.elastic 0.2 = 9/8 ∧
    ¬ (easingFunctionsFairyLights AnimationEasing.elastic 0.2 ≤ 1) := by
  have htp : targetProgress SceneState.FORMED = 1 := by
    simp [targetProgress]
  have h1 : fairyLightsProgressStep SceneState.FORMED 1 1 0 = 1.5 := by
    simp only [fairyLightsProgressStep, htp]
    norm_num
  have hne : ¬ ((0.2 : ℝ) = 0 ∨ (0.2 : ℝ) = 1) := by norm_num
  have hval : easingFunctionsFairyLights AnimationEasing.elastic 0.2 = 9/8 := by
    show (if (0.2 : ℝ) = 0 ∨ (0.2 : ℝ) = 1 then (0.2 : ℝ)
      else (2 : ℝ) ^ (-10 * (0.2 : ℝ)) *
        Real.sin (((0.2 : ℝ) * 10 - 0.75) * (2 * π / 3)) + 1) = 9/8
    rw [if_neg hne]
    have harg : ((0.2 : ℝ) * 10 - 0.75) * (2 * π / 3) = π - π / 6 := by ring
    have hsin : Real.sin (((0.2 : ℝ) * 10 - 0.75) * (2 * π / 3)) = 1 / 2 := by
      rw [harg, Real.sin_pi_sub, Real.sin_pi_div_six]
    have hpow : (2 : ℝ) ^ (-10 * (0.2 : ℝ)) = 1 / 4 := by
      rw [show (-10 * (0.2 : ℝ)) = ((-2 : ℤ) : ℝ) by norm_num, Real.rpow_intCast]
      norm_num
    rw [hsin, hpow]
    norm_num
  refine ⟨h1, ?_, hval, ?_⟩
  · rw [h1, htp]; norm_num
  · rw [hval]; norm_num

/-- C4, amended.  The duration-based Foliage update never overshoots: for
every state, speed, nonnegative frame time and stored progress `p`, the
updated progress lies between `p` and the target.  (The exponential
FairyLights/GiftPile/PhotoOrnaments update can overshoot the *stored*
progress, but the clamped value `rawT` fed to the easing always lies in
`[0,1]`.)  The eased parameter stays within `[0,1]` for every easing
except `elastic`, which overshoots above `1` by design. -/
theorem C4_bounded_interpolation :
    (∀ (state : SceneState) (speed delta p : ℝ), 0 ≤ delta →
        min p (targetProgress state) ≤ foliageProgressStep state speed delta p ∧
        foliageProgressStep state speed delta p ≤ max p (targetProgress state)) ∧
    (∀ x : ℝ, 0 ≤ clamp01 x ∧ clamp01 x ≤ 1) ∧
    (∀ e : AnimationEasing, e ≠ AnimationEasing.elastic → ∀ t : ℝ, 0 ≤ t → t ≤ 1 →
        0 ≤ easingFunctionsFairyLights e t ∧ easingFunctionsFairyLights e t ≤ 1) := by
  refine ⟨?_, ?_, ?_⟩
  · intro state speed delta p hδ
    have hm : (0 : ℝ) < max 0.3 (min 3 speed) := lt_of_lt_of_le (by norm_num) (le_max_left _ _)
    have hdur : (0 : ℝ) < 1 / max 0.3 (min 3 speed) := by positivity
    have hstep : 0 ≤ delta / (1 / max 0.3 (min 3 speed)) := div_nonneg hδ hdur.le
    simp only [foliageProgressStep]
    split_ifs with hgt hlt
    · constructor
      · exact le_trans (min_le_left _ _) (le_min (by linarith) (by linarith))
      · exact le_trans (min_le_left _ _) (le_max_right _ _)
    · constructor
      · exact le_trans (min_le_right _ _) (le_max_left _ _)
      · exact max_le (le_max_right _ _) (le_trans (by linarith) (le_max_left _ _))
    · have heq : targetProgress state = p := le_antisymm (not_lt.mp hgt) (not_lt.mp hlt)
      exact ⟨le_trans (min_le_left _ _) le_rfl, le_max_left _ _⟩
  · intro x
    refine ⟨le_max_left _ _, max_le (by norm_num) (min_le_left _ _)⟩
  · intro e hne t h0 h1
    cases e with
    | elastic => exact absurd rfl hne
    | linear => exact ⟨h0, h1⟩
    | easeIn =>
        constructor
        · have := mul_nonneg (mul_nonneg h0 h0) h0
          simpa [easingFunctionsFairyLights] using this
        · show t * t * t ≤ 1
          nlinarith
    | easeOut =>
        have hu0 : (0 : ℝ) ≤ 1 - t := by linarith
        have hu1 : (1 : ℝ) - t ≤ 1 := by linarith
        have hc0 : (0 : ℝ) ≤ (1 - t) ^ 3 := pow_nonneg hu0 3
        have hc1 : (1 - t) ^ 3 ≤ 1 := pow_le_one₀ hu0 hu1
        show 0 ≤ 1 - (1 - t) ^ 3 ∧ 1 - (1 - t) ^ 3 ≤ 1
        constructor <;> linarith
    | easeInOut =>
        show 0 ≤ (if t < 0.5 then 4 * t * t * t else 1 - (-2 * t + 2) ^ 3 / 2) ∧
          (if t < 0.5 then 4 * t * t * t else 1 - (-2 * t + 2) ^ 3 / 2) ≤ 1
        split_ifs with ht
        · constructor
          · have := mul_nonneg (mul_nonneg h0 h0) h0
            linarith
          · nlinarith [mul_nonneg h0 h0, mul_nonneg (mul_nonneg h0 h0) h0]
        · push_neg at ht
          have hu0 : (0 : ℝ) ≤ -2 * t + 2 := by linarith
          have hu1 : -2 * t + 2 ≤ 1 := by linarith
          have hc0 : (0 : ℝ) ≤ (-2 * t + 2) ^ 3 := pow_nonneg hu0 3
          have hc1 : (-2 * t + 2) ^ 3 ≤ 1 := pow_le_one₀ hu0 hu1
          constructor <;> linarith
    | bounce =>
        show 0 ≤ (if t < 1 / 2.75 then 7.5625 * t * t
            else if t < 2 / 2.75 then 7.5625 * (t - 1.5 / 2.75) * (t - 1.5 / 2.75) + 0.75
            else if t < 2.5 / 2.75 then 7.5625 * (t - 2.25 / 2.75) * (t - 2.25 / 2.75) + 0.9375
            else 7.5625 * (t - 2.625 / 2.75) * (t - 2.625 / 2.75) + 0.984375) ∧
          (if t < 1 / 2.75 then 7.5625 * t * t
            else if t < 2 / 2.75 then 7.5625 * (t - 1.5 / 2.75) * (t - 1.5 / 2.75) + 0.75
            else if t < 2.5 / 2.75 then 7.5625 * (t - 2.25 / 2.75) * (t - 2.25 / 2.75) + 0.9375
            else 7.5625 * (t - 2.625 / 2.75) * (t - 2.625 / 2.75) + 0.984375) ≤ 1
        split_ifs with hb1 hb2 hb3
        · constructor
          · nlinarith [mul_nonneg h0 h0]
          · nlinarith [mul_nonneg (by linarith : (0:ℝ) ≤ 1/2.75 - t) (by linarith : (0:ℝ) ≤ 1/2.75 + t)]
        · push_neg at hb1
          constructor
          · nlinarith [sq_nonneg (t - 1.5 / 2.75)]
          · nlinarith [mul_nonneg (by linarith : (0:ℝ) ≤ 2/2.75 - t) (by linarith : (0:ℝ) ≤ t - 1/2.75)]
        · push_neg at hb1 hb2
          constructor
          · nlinarith [sq_nonneg (t - 2.25 / 2.75)]
          · nlinarith [mul_nonneg (by linarith : (0:ℝ) ≤ 2.5/2.75 - t) (by linarith : (0:ℝ) ≤ t - 2/2.75)]
        · push_neg at hb1 hb2 hb3
          constructor
          · nlinarith [sq_nonneg (t - 2.625 / 2.75)]
          · nlinarith [mul_nonneg (by linarith : (0:ℝ) ≤ 1 + 0.25/2.75 - t) (by linarith : (0:ℝ) ≤ t - 2.5/2.75)]

/-- Witness for `C4_bounded_interpolation`: the Foliage update at
(`FORMED`, speed 1, delta 1, progress 0) and the `linear` easing at
`t = 1/2`. -/
theorem C4_bounded_interpolation_witness :
    (0 : ℝ) ≤ 1 ∧
    (min (0 : ℝ) (targetProgress SceneState.FORMED)
        ≤ foliageProgressStep SceneState.FORMED 1 1 0 ∧
      foliageProgressStep SceneState.FORMED 1 1 0
        ≤ max (0 : ℝ) (targetProgress SceneState.FORMED)) ∧
    AnimationEasing.linear ≠ AnimationEasing.elastic ∧
    (0 ≤ easingFunctionsFairyLights AnimationEasing.linear (1/2) ∧
      easingFunctionsFairyLights AnimationEasing.linear (1/2) ≤ 1) :=
  ⟨by norm_num,
   C4_bounded_interpolation.1 SceneState.FORMED 1 1 0 (by norm_num),
   by decide,
   C4_bounded_interpolation.2.2 AnimationEasing.linear (by decide) (1/2)
     (by norm_num) (by norm_num)⟩

/-! ### Gesture recognition (`GestureController.tsx`)

Hand landmarks are the 21 points delivered by the hand-landmark model;
`recognizeGesture` (lines 79-142) is a pure cascade of early returns over
them.  A hand is modelled as a total function `Fin 21 → Landmark`, and the
early-return cascade as a right-nested if-then-else whose conditions are
named after the rule they implement; the nested thumb-up/thumb-down block
(which falls through to the later rules when neither `y` test holds) is
flattened into two conditions in the same relative order. -/

structure Landmark where
  x : ℝ
  y : ℝ
  z : ℝ

/-- A detected hand: the 21 landmarks, indexed as in the `LANDMARKS` map. -/
abbrev Hand := Fin 21 → Landmark

def WRIST : Fin 21 := 0
def THUMB_MCP : Fin 21 := 2
def THUMB_IP : Fin 21 := 3
def THUMB_TIP : Fin 21 := 4
def INDEX_MCP : Fin 21 := 5
def INDEX_PIP : Fin 21 := 6
def INDEX_TIP : Fin 21 := 8
def MIDDLE_MCP : Fin 21 := 9
def MIDDLE_PIP : Fin 21 := 10
def MIDDLE_TIP : Fin 21 := 12
def RING_MCP : Fin 21 := 13
def RING_PIP : Fin 21 := 14
def RING_TIP : Fin 21 := 16
def PINKY_MCP : Fin 21 := 17
def PINKY_PIP : Fin 21 := 18
def PINKY_TIP : Fin 21 := 20

/-- Euclidean distance between two landmarks (`distance`, lines 33-35). -/
noncomputable def distance (a b : Landmark) : ℝ :=
  Real.sqrt ((a.x - b.x) ^ 2 + (a.y - b.y) ^ 2 + (a.z - b.z) ^ 2)

/-- 2D distance ignoring `z` (`distance2D`, lines 38-40). -/
noncomputable def distance2D (a b : Landmark) : ℝ :=
  Real.sqrt ((a.x - b.x) ^ 2 + (a.y - b.y) ^ 2)

/-- `isFingerExtended` (lines 43-57): the tip is farther from the wrist
than `0.95 ×` the PIP distance and `1.1 ×` the MCP distance. -/
def isFingerExtended (landmarks : Hand) (tipIdx pipIdx mcpIdx : Fin 21) : Prop :=
  distance (landmarks tipIdx) (landmarks WRIST)
      > distance (landmarks pipIdx) (landmarks WRIST) * 0.95 ∧
  distance (landmarks tipIdx) (landmarks WRIST)
      > distance (landmarks mcpIdx) (landmarks WRIST) * 1.1

/-- `isThumbExtended` (lines 60-76): either distance test suffices. -/
def isThumbExtended (landmarks : Hand) : Prop :=
  distance (landmarks THUMB_TIP) (landmarks INDEX_MCP)
      > distance (landmarks THUMB_IP) (landmarks INDEX_MCP) * 1.05 ∨
  distance (landmarks THUMB_TIP) (landmarks THUMB_MCP)
      > distance (landmarks THUMB_IP) (landmarks THUMB_MCP) * 1.3

def indexExtended (lm : Hand) : Prop := isFingerExtended lm INDEX_TIP INDEX_PIP INDEX_MCP

def middleExtended (lm : Hand) : Prop := isFingerExtended lm MIDDLE_TIP MIDDLE_PIP MIDDLE_MCP

def ringExtended (lm : Hand) : Prop := isFingerExtended lm RING_TIP RING_PIP RING_MCP

def pinkyExtended (lm : Hand) : Prop := isFingerExtended lm PINKY_TIP PINKY_PIP PINKY_MCP

open Classical in
/-- `extendedCount`: how many of the five digits are extended (line 86). -/
noncomputable def extendedCount (lm : Hand) : ℕ :=
  (if isThumbExtended lm then 1 else 0) + (if indexExtended lm then 1 else 0) +
  (if middleExtended lm then 1 else 0) + (if ringExtended lm then 1 else 0) +
  (if pinkyExtended lm then 1 else 0)

open Classical in
/-- `fingerCount`: how many of the four non-thumb fingers are extended (line 87). -/
noncomputable def fingerCount (lm : Hand) : ℕ :=
  (if indexExtended lm then 1 else 0) + (if middleExtended lm then 1 else 0) +
  (if ringExtended lm then 1 else 0) + (if pinkyExtended lm then 1 else 0)

/-- `isPinching` (lines 90-93): thumb tip and index tip within `0.08` in 2D,
with the middle or ring finger extended. -/
def isPinching (lm : Hand) : Prop :=
  distance2D (lm THUMB_TIP) (lm INDEX_TIP) < 0.08 ∧
  (middleExtended lm ∨ ringExtended lm)

/-- The `GestureName` union type (lines 15-24). -/
inductive GestureName where
  | None
  | Open_Palm
  | Closed_Fist
  | Pointing_Up
  | Thumb_Up
  | Thumb_Down
  | Victory
  | ILoveYou
  | Pinch
  deriving DecidableEq, Repr

/-- Condition of the Open_Palm early return (line 100). -/
def openPalmRule (lm : Hand) : Prop :=
  extendedCount lm ≥ 4 ∨ (fingerCount lm ≥ 3 ∧ isThumbExtended lm)

/-- Condition of the Closed_Fist early return (line 105). -/
def closedFistRule (lm : Hand) : Prop :=
  extendedCount lm ≤ 1 ∧ ¬ indexExtended lm ∧ ¬ middleExtended lm

/-- Condition of the Thumb_Up early return (lines 110-115, flattened). -/
def thumbUpRule (lm : Hand) : Prop :=
  isThumbExtended lm ∧ fingerCount lm ≤ 1 ∧
  (lm THUMB_TIP).y < (lm WRIST).y - 0.05

/-- Condition of the Thumb_Down early return (lines 110-118, flattened). -/
def thumbDownRule (lm : Hand) : Prop :=
  isThumbExtended lm ∧ fingerCount lm ≤ 1 ∧
  (lm THUMB_TIP).y > (lm WRIST).y + 0.05

/-- Condition of the Pointing_Up early return (line 122). -/
def pointingUpRule (lm : Hand) : Prop :=
  indexExtended lm ∧ ¬ middleExtended lm ∧ ¬ ringExtended lm ∧ ¬ pinkyExtended lm

/-- Condition of the Victory early return (line 127). -/
def victoryRule (lm : Hand) : Prop :=
  indexExtended lm ∧ middleExtended lm ∧ ¬ ringExtended lm ∧ ¬ pinkyExtended lm

/-- Condition of the primary ILoveYou early return (line 132). -/
def iLoveYouRule (lm : Hand) : Prop :=
  isThumbExtended lm ∧ indexExtended lm ∧ pinkyExtended lm ∧ ¬ middleExtended lm

/-- Condition of the fallback ILoveYou early return (line 137). -/
def iLoveYouAltRule (lm : Hand) : Prop :=
  indexExtended lm ∧ pinkyExtended lm ∧ ¬ middleExtended lm ∧ ¬ ringExtended lm

open Classical in
/-- `recognizeGesture` (lines 79-142): the early-return cascade. -/
noncomputable def recognizeGesture (lm : Hand) : GestureName × ℝ :=
  if isPinching lm then (GestureName.Pinch, 0.85)
  else if openPalmRule lm then (GestureName.Open_Palm, 0.9)
  else if closedFistRule lm then (GestureName.Closed_Fist, 0.9)
  else if thumbUpRule lm then (GestureName.Thumb_Up, 0.8)
  else if thumbDownRule lm then (GestureName.Thumb_Down, 0.8)
  else if pointingUpRule lm then (GestureName.Pointing_Up, 0.8)
  else if victoryRule lm then (GestureName.Victory, 0.85)
  else if iLoveYouRule lm then (GestureName.ILoveYou, 0.8)
  else if iLoveYouAltRule lm then (GestureName.ILoveYou, 0.75)
  else (GestureName.None, 0)

/-- A concrete hand performing a pinch: thumb tip and index tip coincide at
`(1,0,0)`, the middle finger is straight up from the wrist at the origin,
all other landmarks are at the origin. -/
noncomputable def pinchHand : Hand := fun i =>
  if i = MIDDLE_MCP then ⟨0, 1, 0⟩
  else if i = MIDDLE_PIP then ⟨0, 2, 0⟩
  else if i = MIDDLE_TIP then ⟨0, 3, 0⟩
  else if i = THUMB_TIP then ⟨1, 0, 0⟩
  else if i = INDEX_TIP then ⟨1, 0, 0⟩
  else ⟨0, 0, 0⟩

lemma sqrt_eq_of_sq (a b : ℝ) (hb : 0 ≤ b) (h : a = b ^ 2) : Real.sqrt a = b := by
  rw [h, Real.sqrt_sq hb]

lemma middleExtended_pinchHand : middleExtended pinchHand := by
  have e1 : pinchHand MIDDLE_TIP = ⟨0, 3, 0⟩ := rfl
  have e2 : pinchHand MIDDLE_PIP = ⟨0, 2, 0⟩ := rfl
  have e3 : pinchHand MIDDLE_MCP = ⟨0, 1, 0⟩ := rfl
  have e4 : pinchHand WRIST = ⟨0, 0, 0⟩ := rfl
  unfold middleExtended isFingerExtended
  rw [e1, e2, e3, e4]
  unfold distance
  have d1 : Real.sqrt (((0:ℝ) - 0) ^ 2 + ((3:ℝ) - 0) ^ 2 + ((0:ℝ) - 0) ^ 2) = 3 :=
    sqrt_eq_of_sq _ _ (by norm_num) (by norm_num)
  have d2 : Real.sqrt (((0:ℝ) - 0) ^ 2 + ((2:ℝ) - 0) ^ 2 + ((0:ℝ) - 0) ^ 2) = 2 :=
    sqrt_eq_of_sq _ _ (by norm_num) (by norm_num)
  have d3 : Real.sqrt (((0:ℝ) - 0) ^ 2 + ((1:ℝ) - 0) ^ 2 + ((0:ℝ) - 0) ^ 2) = 1 :=
    sqrt_eq_of_sq _ _ (by norm_num) (by norm_num)
  rw [d1, d2, d3]
  norm_num

lemma isPinching_pinchHand : isPinching pinchHand := by
  constructor
  · have e1 : pinchHand THUMB_TIP = ⟨1, 0, 0⟩ := rfl
    have e2 : pinchHand INDEX_TIP = ⟨1, 0, 0⟩ := rfl
    rw [e1, e2]
    unfold distance2D
    have d0 : Real.sqrt (((1:ℝ) - 1) ^ 2 + ((0:ℝ) - 0) ^ 2) = 0 :=
      sqrt_eq_of_sq _ _ (by norm_num) (by norm_num)
    rw [d0]
    norm_num
  · exact Or.inl middleExtended_pinchHand

lemma recognizeGesture_pinchHand :
    recognizeGesture pinchHand = (GestureName.Pinch, 0.85) := by
  simp [recognizeGesture, isPinching_pinchHand]

/-- C3.  `recognizeGesture` is a total function on hands that evaluates its
rules in the fixed priority order: Pinch overrides everything, then
Open_Palm, Closed_Fist, Thumb_Up, Thumb_Down, Pointing_Up, Victory, the
two ILoveYou rules, and `(None, 0)` is returned exactly when no rule
matches. -/
theorem C3_recognizeGesture_priority :
    ∀ lm : Hand,
      (isPinching lm → recognizeGesture lm = (GestureName.Pinch, 0.85)) ∧
      (¬ isPinching lm → openPalmRule lm →
        recognizeGesture lm = (GestureName.Open_Palm, 0.9)) ∧
      (¬ isPinching lm → ¬ openPalmRule lm → closedFistRule lm →
        recognizeGesture lm = (GestureName.Closed_Fist, 0.9)) ∧
      (¬ isPinching lm → ¬ openPalmRule lm → ¬ closedFistRule lm → thumbUpRule lm →
        recognizeGesture lm = (GestureName.Thumb_Up, 0.8)) ∧
      (¬ isPinching lm → ¬ openPalmRule lm → ¬ closedFistRule lm → ¬ thumbUpRule lm →
        thumbDownRule lm → recognizeGesture lm = (GestureName.Thumb_Down, 0.8)) ∧
      (¬ isPinching lm → ¬ openPalmRule lm → ¬ closedFistRule lm → ¬ thumbUpRule lm →
        ¬ thumbDownRule lm → pointingUpRule lm →
        recognizeGesture lm = (GestureName.Pointing_Up, 0.8)) ∧
      (¬ isPinching lm → ¬ openPalmRule lm → ¬ closedFistRule lm → ¬ thumbUpRule lm →
        ¬ thumbDownRule lm → ¬ pointingUpRule lm → victoryRule lm →
        recognizeGesture lm = (GestureName.Victory, 0.85)) ∧
      (¬ isPinching lm → ¬ openPalmRule lm → ¬ closedFistRule lm → ¬ thumbUpRule lm →
        ¬ thumbDownRule lm → ¬ pointingUpRule lm → ¬ victoryRule lm → iLoveYouRule lm →
        recognizeGesture lm = (GestureName.ILoveYou, 0.8)) ∧
      (¬ isPinching lm → ¬ openPalmRule lm → ¬ closedFistRule lm → ¬ thumbUpRule lm →
        ¬ thumbDownRule lm → ¬ pointingUpRule lm → ¬ victoryRule lm → ¬ iLoveYouRule lm →
        iLoveYouAltRule lm → recognizeGesture lm = (GestureName.ILoveYou, 0.75)) ∧
      (recognizeGesture lm = (GestureName.None, 0) ↔
        ¬ isPinching lm ∧ ¬ openPalmRule lm ∧ ¬ closedFistRule lm ∧ ¬ thumbUpRule lm ∧
        ¬ thumbDownRule lm ∧ ¬ pointingUpRule lm ∧ ¬ victoryRule lm ∧
        ¬ iLoveYouRule lm ∧ ¬ iLoveYouAltRule lm) := by
  intro lm
  refine ⟨?_, ?_, ?_, ?_, ?_, ?_, ?_, ?_, ?_, ?_⟩
  · intro h1; simp [recognizeGesture, h1]
  · intro h1 h2; simp [recognizeGesture, h1, h2]
  · intro h1 h2 h3; simp [recognizeGesture, h1, h2, h3]
  · intro h1 h2 h3 h4; simp [recognizeGesture, h1, h2, h3, h4]
  · intro h1 h2 h3 h4 h5; simp [recognizeGesture, h1, h2, h3, h4, h5]
  · intro h1 h2 h3 h4 h5 h6; simp [recognizeGesture, h1, h2, h3, h4, h5, h6]
  · intro h1 h2 h3 h4 h5 h6 h7; simp [recognizeGesture, h1, h2, h3, h4, h5, h6, h7]
  · intro h1 h2 h3 h4 h5 h6 h7 h8
    simp [recognizeGesture, h1, h2, h3, h4, h5, h6, h7, h8]
  · intro h1 h2 h3 h4 h5 h6 h7 h8 h9
    simp [recognizeGesture, h1, h2, h3, h4, h5, h6, h7, h8, h9]
  · unfold recognizeGesture
    split_ifs with h1 h2 h3 h4 h5 h6 h7 h8 h9 <;> simp_all

/-- Witness for `C3_recognizeGesture_priority` at the concrete pinching
hand. -/
theorem C3_recognizeGesture_priority_witness :
    isPinching pinchHand ∧ recognizeGesture pinchHand = (GestureName.Pinch, 0.85) :=
  ⟨isPinching_pinchHand,
   (C3_recognizeGesture_priority pinchHand).1 isPinching_pinchHand⟩

/-- C8.  The confidence returned by `recognizeGesture` always belongs to
`{0, 0.75, 0.8, 0.85, 0.9}`, is `0` exactly when the gesture is `None`,
and every non-`None` gesture clears the controller's `0.6` threshold. -/
theorem C8_confidence_values :
    ∀ lm : Hand,
      ((recognizeGesture lm).2 = 0 ∨ (recognizeGesture lm).2 = 0.75 ∨
        (recognizeGesture lm).2 = 0.8 ∨ (recognizeGesture lm).2 = 0.85 ∨
        (recognizeGesture lm).2 = 0.9) ∧
      ((recognizeGesture lm).2 = 0 ↔ (recognizeGesture lm).1 = GestureName.None) ∧
      ((recognizeGesture lm).1 ≠ GestureName.None → (recognizeGesture lm).2 > 0.6) := by
  intro lm
  unfold recognizeGesture
  split_ifs <;> norm_num

/-- Witness for `C8_confidence_values` at the concrete pinching hand. -/
theorem C8_confidence_values_witness :
    (recognizeGesture pinchHand).1 ≠ GestureName.None ∧
    (recognizeGesture pinchHand).2 > 0.6 := by
  have hne : (recognizeGesture pinchHand).1 ≠ GestureName.None := by
    rw [recognizeGesture_pinchHand]
    simp
  exact ⟨hne, (C8_confidence_values pinchHand).2.2 hne⟩

/-! ### The prediction loop of the gesture controller

`predictWebcam` (lines 296-416) runs once per `requestAnimationFrame` tick.
Its per-frame mutable state is the four refs `lastGestureRef`,
`gestureHoldCountRef`, `pinchCooldownRef` and `lastPalmPosRef`; its effects
are the `onGesture`, `onPinch`, `onMove`, `onPalmVertical` and `onPalmMove`
callbacks.  One frame is modelled as a function from the state and the
detection result (`none` = no hand) to the new state and the dispatched
callback values. -/

structure CtrlState where
  lastGesture : GestureName
  holdCount : ℕ
  pinchCooldown : ℕ
  lastPalmPos : Option (ℝ × ℝ)

structure FrameOutput where
  onGesture : Option GestureName
  onPinch : Option (ℝ × ℝ)
  onMove : ℝ
  onPalmVertical : Option ℝ
  onPalmMove : Option (ℝ × ℝ)

noncomputable def defaultFrameOutput : FrameOutput := ⟨none, none, 0, none, none⟩

open Classical in
/-- One iteration of `predictWebcam` (lines 327-413): decrement the pinch
cooldown, then — when a hand is detected — recognise the gesture, update
the stability counter, and dispatch the callbacks exactly under the guards
of the source. -/
noncomputable def predictFrame (isPhotoSelected : Bool) (s : CtrlState)
    (input : Option Hand) : CtrlState × FrameOutput :=
  let cooldown1 := if s.pinchCooldown > 0 then s.pinchCooldown - 1 else s.pinchCooldown
  match input with
  | some lm =>
      let gesture := (recognizeGesture lm).1
      let confidence := (recognizeGesture lm).2
      let holdCount := if gesture = s.lastGesture then s.holdCount + 1 else 0
      let palmCenter : ℝ × ℝ :=
        (((lm WRIST).x + (lm MIDDLE_MCP).x) / 2, ((lm WRIST).y + (lm MIDDLE_MCP).y) / 2)
      let fires := holdCount ≥ 2 ∧ confidence > 0.6
      let pinchFire := fires ∧ gesture = GestureName.Pinch ∧ cooldown1 = 0
      let cooldown2 := if pinchFire then 30 else cooldown1
      let pinchOut : Option (ℝ × ℝ) :=
        if pinchFire then
          some (((lm THUMB_TIP).x + (lm INDEX_TIP).x) / 2,
                ((lm THUMB_TIP).y + (lm INDEX_TIP).y) / 2)
        else none
      let palmVerticalOut : Option ℝ :=
        if fires ∧ gesture = GestureName.Open_Palm then
          some (max 0 (min 1 ((palmCenter.2 - 0.2) / 0.6)))
        else none
      let palmMoveOut : Option (ℝ × ℝ) :=
        if fires ∧ gesture = GestureName.Open_Palm then
          match s.lastPalmPos with
          | some lp =>
              if |(lp.1 - palmCenter.1) * 4| > 0.008 ∨ |(palmCenter.2 - lp.2) * 3| > 0.008
              then some ((lp.1 - palmCenter.1) * 4, (palmCenter.2 - lp.2) * 3)
              else none
          | none => none
        else none
      let lastPalm : Option (ℝ × ℝ) :=
        if fires then (if gesture = GestureName.Open_Palm then some palmCenter else none)
        else s.lastPalmPos
      let gestureOut : Option GestureName :=
        if fires ∧ gesture ≠ GestureName.Pinch ∧ gesture ≠ GestureName.None
        then some gesture else none
      let moveOut : ℝ :=
        if isPhotoSelected = false ∧ gesture ≠ GestureName.Open_Palm then
          if |(0.5 - palmCenter.1) * 0.1| > 0.01 then (0.5 - palmCenter.1) * 0.1 else 0
        else 0
      (⟨gesture, holdCount, cooldown2, lastPalm⟩,
       ⟨gestureOut, pinchOut, moveOut, palmVerticalOut, palmMoveOut⟩)
  | none =>
      (⟨GestureName.None, 0, cooldown1, none⟩, ⟨none, none, 0, none, none⟩)

/-- Iterated prediction loop over a list of per-frame detection results. -/
noncomputable def runFrames (sel : Bool) :
    CtrlState → List (Option Hand) → CtrlState × List FrameOutput
  | s, [] => (s, [])
  | s, input :: rest =>
      let fr := predictFrame sel s input
      let tail := runFrames sel fr.1 rest
      (tail.1, fr.2 :: tail.2)

lemma predictFrame_cooldown_blocked (sel : Bool) (s : CtrlState)
    (input : Option Hand) (h : 2 ≤ s.pinchCooldown) :
    ((predictFrame sel s input).2).onPinch = none ∧
    (predictFrame sel s input).1.pinchCooldown = s.pinchCooldown - 1 := by
  have hpos : s.pinchCooldown > 0 := by omega
  have hne : ¬ (s.pinchCooldown - 1 = 0) := by omega
  cases input with
  | none => simp [predictFrame, hpos]
  | some lm => simp [predictFrame, hpos, hne]

lemma runFrames_cooldown_blocked (sel : Bool) :
    ∀ (inputs : List (Option Hand)) (s : CtrlState) (i : ℕ),
      i + 1 < s.pinchCooldown →
      ((runFrames sel s inputs).2.getD i defaultFrameOutput).onPinch = none := by
  intro inputs
  induction inputs with
  | nil => intro s i hi; simp [runFrames, defaultFrameOutput]
  | cons input rest ih =>
      intro s i hi
      obtain ⟨hp, hc⟩ := predictFrame_cooldown_blocked sel s input (by omega)
      cases i with
      | zero => simpa [runFrames] using hp
      | succ j =>
          have hj : j + 1 < (predictFrame sel s input).1.pinchCooldown := by omega
          simpa [runFrames] using ih (predictFrame sel s input).1 j hj

lemma predictFrame_fire_cooldown (sel : Bool) (s : CtrlState)
    (input : Option Hand) (p : ℝ × ℝ)
    (h : ((predictFrame sel s input).2).onPinch = some p) :
    (predictFrame sel s input).1.pinchCooldown = 30 := by
  cases input with
  | none => simp [predictFrame] at h
  | some lm =>
      simp only [predictFrame] at h ⊢
      split_ifs at h ⊢ <;> simp_all

lemma pinch_fire_out :
    ((predictFrame false ⟨GestureName.Pinch, 1, 0, none⟩ (some pinchHand)).2).onPinch
      = some (1, 0) := by
  have e1 : pinchHand THUMB_TIP = ⟨1, 0, 0⟩ := rfl
  have e2 : pinchHand INDEX_TIP = ⟨1, 0, 0⟩ := rfl
  norm_num [predictFrame, recognizeGesture_pinchHand, e1, e2]

lemma pinch_fire_state :
    (predictFrame false ⟨GestureName.Pinch, 1, 0, none⟩ (some pinchHand)).1
      = ⟨GestureName.Pinch, 2, 30, none⟩ := by
  norm_num [predictFrame, recognizeGesture_pinchHand]
  intro hcon
  exact absurd hcon (by decide)

lemma pinch_step_blocked (h c : ℕ) (hc : 2 ≤ c) :
    (predictFrame false ⟨GestureName.Pinch, h, c, none⟩ (some pinchHand)).1
      = ⟨GestureName.Pinch, h + 1, c - 1, none⟩ ∧
    ((predictFrame false ⟨GestureName.Pinch, h, c, none⟩ (some pinchHand)).2).onPinch
      = none := by
  have hpos : c > 0 := by omega
  have hne : ¬ (c - 1 = 0) := by omega
  constructor
  · norm_num [predictFrame, recognizeGesture_pinchHand, hne, hpos]
    intro _ hcon
    exact absurd hcon (by decide)
  · norm_num [predictFrame, recognizeGesture_pinchHand, hne, hpos]

lemma pinch_step_fire (h : ℕ) (hh : 1 ≤ h) :
    ((predictFrame false ⟨GestureName.Pinch, h, 1, none⟩ (some pinchHand)).2).onPinch
      = some (1, 0) := by
  have e1 : pinchHand THUMB_TIP = ⟨1, 0, 0⟩ := rfl
  have e2 : pinchHand INDEX_TIP = ⟨1, 0, 0⟩ := rfl
  have hst : h + 1 ≥ 2 := by omega
  norm_num [predictFrame, recognizeGesture_pinchHand, e1, e2, hst]

lemma runPinch_fires_at : ∀ (k hcnt : ℕ), 1 ≤ hcnt →
    ((runFrames false ⟨GestureName.Pinch, hcnt, k + 1, none⟩
        (List.replicate (k + 1) (some pinchHand))).2.getD k defaultFrameOutput).onPinch
      = some (1, 0) := by
  intro k
  induction k with
  | zero =>
      intro hcnt hh
      simpa [runFrames, List.replicate] using pinch_step_fire hcnt hh
  | succ j ih =>
      intro hcnt hh
      obtain ⟨hs, _⟩ := pinch_step_blocked hcnt (j + 2) (by omega)
      rw [show j + 1 + 1 = j + 2 from rfl, show (j + 2) = (j + 1) + 1 from rfl,
        List.replicate_succ]
      simp only [runFrames]
      rw [show (j + 1) + 1 = j + 2 from rfl] at hs
      rw [hs]
      simpa [List.getD_cons_succ] using ih (hcnt + 1) (by omega)

/-- A hand with every landmark at the origin: every finger test fails, so
`recognizeGesture` reaches the Closed_Fist rule. -/
noncomputable def fistHand : Hand := fun _ => ⟨0, 0, 0⟩

lemma not_finger_extended_fistHand (tip pip mcp : Fin 21) :
    ¬ isFingerExtended fistHand tip pip mcp := by
  intro h
  unfold isFingerExtended fistHand distance at h
  norm_num at h

lemma not_thumb_extended_fistHand : ¬ isThumbExtended fistHand := by
  intro h
  unfold isThumbExtended fistHand distance at h
  norm_num at h

lemma recognizeGesture_fistHand :
    recognizeGesture fistHand = (GestureName.Closed_Fist, 0.9) := by
  have hnp : ¬ isPinching fistHand := by
    intro h
    exact h.2.elim (not_finger_extended_fistHand _ _ _) (not_finger_extended_fistHand _ _ _)
  have hnt : ¬ isThumbExtended fistHand := not_thumb_extended_fistHand
  have hni : ¬ indexExtended fistHand := not_finger_extended_fistHand _ _ _
  have hnm : ¬ middleExtended fistHand := not_finger_extended_fistHand _ _ _
  have hnr : ¬ ringExtended fistHand := not_finger_extended_fistHand _ _ _
  have hnk : ¬ pinkyExtended fistHand := not_finger_extended_fistHand _ _ _
  have hcount : extendedCount fistHand = 0 := by
    simp [extendedCount, hnt, hni, hnm, hnr, hnk]
  have hop : ¬ openPalmRule fistHand := by
    intro h
    rcases h with h | h
    · omega
    · exact hnt h.2
  have hcf : closedFistRule fistHand := ⟨by omega, hni, hnm⟩
  simp [recognizeGesture, hnp, hop, hcf]

lemma fist_frame_fires :
    ((predictFrame false ⟨GestureName.Closed_Fist, 1, 0, none⟩ (some fistHand)).2).onGesture
      = some GestureName.Closed_Fist := by
  have d1 : GestureName.Closed_Fist ≠ GestureName.Pinch := by decide
  have d2 : GestureName.Closed_Fist ≠ GestureName.None := by decide
  norm_num [predictFrame, recognizeGesture_fistHand, d1, d2]

/-- C5, counterexample.  The claim that after an `onPinch` dispatch no
further `onPinch` dispatch occurs during the following 30 frames is false:
the cooldown is decremented at the top of every frame before the
`pinchCooldownRef.current === 0` test, so after a dispatch the cooldown of
30 blocks only the following 29 frames, and a steady pinch fires again
exactly on the 30th following frame (continuation index 29). -/
theorem C5_pinch_cooldown_counterexample :
    ¬ (∀ (sel : Bool) (s : CtrlState) (input : Option Hand) (p : ℝ × ℝ)
        (rest : List (Option Hand)) (i : ℕ),
        ((predictFrame sel s input).2).onPinch = some p → i < 30 →
        ((runFrames sel (predictFrame sel s input).1 rest).2.getD i
          defaultFrameOutput).onPinch = none) := by
  intro hcl
  have h2 := hcl false ⟨GestureName.Pinch, 1, 0, none⟩ (some pinchHand) (1, 0)
    (List.replicate 30 (some pinchHand)) 29 pinch_fire_out (by norm_num)
  rw [pinch_fire_state] at h2
  have h3 := runPinch_fires_at 29 2 (by norm_num)
  rw [h2] at h3
  exact Option.noConfusion h3

/-- C5, amended.  `onGesture` is dispatched only for a stable
(hold counter ≥ 2, i.e. at least 3 consecutive frames of the same
recognised gesture) and confident (confidence > 0.6) gesture, and never
with `Pinch` or `None`; and after an `onPinch` dispatch no further
`onPinch` dispatch occurs during the following 29 frames of the
prediction loop (the earliest possible next dispatch being the 30th
following frame). -/
theorem C5_gesture_dispatch :
    (∀ (sel : Bool) (s : CtrlState) (input : Option Hand) (g : GestureName),
        ((predictFrame sel s input).2).onGesture = some g →
        (predictFrame sel s input).1.holdCount ≥ 2 ∧
        g ≠ GestureName.Pinch ∧ g ≠ GestureName.None ∧
        ∃ lm, input = some lm ∧ (recognizeGesture lm).1 = g ∧
          (recognizeGesture lm).2 > 0.6) ∧
    (∀ (sel : Bool) (s : CtrlState) (input : Option Hand) (p : ℝ × ℝ)
        (rest : List (Option Hand)) (i : ℕ),
        ((predictFrame sel s input).2).onPinch = some p → i < 29 →
        ((runFrames sel (predictFrame sel s input).1 rest).2.getD i
          defaultFrameOutput).onPinch = none) := by
  constructor
  · intro sel s input g h
    cases input with
    | none => simp [predictFrame] at h
    | some lm =>
        simp only [predictFrame] at h ⊢
        rcases ite_eq_iff.mp h with ⟨hC, hsome⟩ | ⟨_, hnone⟩
        · obtain ⟨hfires, hp, hn⟩ := hC
          have hg : (recognizeGesture lm).1 = g := Option.some.inj hsome
          exact ⟨hfires.1, hg ▸ hp, hg ▸ hn, lm, rfl, hg, hfires.2⟩
        · exact Option.noConfusion hnone
  · intro sel s input p rest i h hi
    have h30 := predictFrame_fire_cooldown sel s input p h
    exact runFrames_cooldown_blocked sel rest _ i (by omega)

/-- Witness for `C5_gesture_dispatch`: the `onGesture` part at a steady
closed fist and the `onPinch` part at a pinch dispatch followed by an
empty continuation. -/
theorem C5_gesture_dispatch_witness :
    (((predictFrame false ⟨GestureName.Closed_Fist, 1, 0, none⟩ (some fistHand)).2).onGesture
        = some GestureName.Closed_Fist ∧
      (predictFrame false ⟨GestureName.Closed_Fist, 1, 0, none⟩ (some fistHand)).1.holdCount ≥ 2 ∧
      GestureName.Closed_Fist ≠ GestureName.Pinch ∧
      GestureName.Closed_Fist ≠ GestureName.None) ∧
    (((predictFrame false ⟨GestureName.Pinch, 1, 0, none⟩ (some pinchHand)).2).onPinch
        = some (1, 0) ∧ (0 : ℕ) < 29 ∧
      ((runFrames false (predictFrame false ⟨GestureName.Pinch, 1, 0, none⟩
          (some pinchHand)).1 []).2.getD 0 defaultFrameOutput).onPinch = none) := by
  have hpart1 := (C5_gesture_dispatch.1 false ⟨GestureName.Closed_Fist, 1, 0, none⟩
    (some fistHand) GestureName.Closed_Fist fist_frame_fires)
  have hpart2 := C5_gesture_dispatch.2 false ⟨GestureName.Pinch, 1, 0, none⟩
    (some pinchHand) (1, 0) [] 0 pinch_fire_out (by norm_num)
  exact ⟨⟨fist_frame_fires, hpart1.1, hpart1.2.1, hpart1.2.2.1⟩,
    ⟨pinch_fire_out, by norm_num, hpart2⟩⟩

/-! ### The timeline step sequencer (`useTimeline.ts`)

`playStep` (lines 106-154) synchronously publishes the new
`TimelineState` and installs timers; when the interval sees
`progress >= 1` it either restarts (a looping `tree` step), stops
(a non-looping `tree` step) or plays the next index.  `playStep` is
modelled by its synchronous effect on the state, the photo counter and
the `onComplete` callback (the `Bool` component); the `progress >= 1`
branch of the interval callback is modelled by `completeTick`. -/

inductive TimelineStepType where
  | intro
  | text
  | photo
  | heart
  | tree
  | voice
  deriving DecidableEq, Repr

structure TimelineStep where
  type : TimelineStepType
  duration : ℝ
  delay : ℝ

structure TimelineConfig where
  enabled : Bool
  autoPlay : Bool
  loop : Bool
  steps : List TimelineStep

structure TimelineState where
  isPlaying : Bool
  currentStepIndex : ℤ
  currentStep : Option TimelineStep
  progress : ℝ

/-- The reset state `{isPlaying: false, currentStepIndex: -1,
currentStep: null, progress: 0}` (lines 110-115). -/
def resetTimelineState : TimelineState := ⟨false, -1, none, 0⟩

/-- `playStep(index)` (lines 106-130): its synchronous effect.  Returns
the published state, the photo counter, and whether `onComplete` was
invoked.  `config?.steps` is absent exactly when the whole config is
absent (`none`). -/
def playStep (config : Option TimelineConfig) (photoCounter : ℕ) (index : ℤ) :
    TimelineState × ℕ × Bool :=
  match config with
  | none => (resetTimelineState, photoCounter, true)
  | some cfg =>
      if index < 0 ∨ (cfg.steps.length : ℤ) ≤ index then
        (resetTimelineState, photoCounter, true)
      else
        ({ isPlaying := true, currentStepIndex := index,
           currentStep := cfg.steps[index.toNat]?, progress := 0 },
         photoCounter, false)

/-- The `progress >= 1` branch of the interval installed by
`playStep(index)` for `step` (lines 138-151): a completed `tree` step
restarts at 0 with the photo counter reset (when `config.loop`) or stops
with `progress` left at 1 and `onComplete` invoked; any other completed
step plays `index + 1`. -/
def completeTick (cfg : TimelineConfig) (index : ℤ) (step : TimelineStep)
    (st : TimelineState) (pc : ℕ) : TimelineState × ℕ × Bool :=
  if step.type = TimelineStepType.tree then
    if cfg.loop then playStep (some cfg) 0 0
    else ({ st with isPlaying := false, progress := 1 }, pc, true)
  else playStep (some cfg) pc (index + 1)

/-- The index automatically played after the step at index `i` completes
(`none` when playback stops): the played-index abstraction of
`completeTick` composed with `playStep`. -/
def autoAdvance (cfg : TimelineConfig) (i : ℕ) : Option ℕ :=
  match cfg.steps[i]? with
  | none => none
  | some step =>
      if step.type = TimelineStepType.tree then
        if cfg.loop then some 0 else none
      else if i + 1 < cfg.steps.length then some (i + 1) else none

/-- `n` automatic advancements from a playing index (`none` = stopped). -/
def autoTraceN (cfg : TimelineConfig) : ℕ → Option ℕ → Option ℕ
  | 0, o => o
  | n + 1, o => autoTraceN cfg n (o.bind (autoAdvance cfg))

lemma autoTraceN_none (cfg : TimelineConfig) : ∀ n, autoTraceN cfg n none = none := by
  intro n
  induction n with
  | zero => rfl
  | succ m ih => simpa [autoTraceN] using ih

/-- `autoAdvance` relates `completeTick` and `playStep`: it only ever
moves to `0` (after a looping tree) or to `i + 1` (after a non-tree
step). -/
lemma autoAdvance_cases (cfg : TimelineConfig) (i i' : ℕ)
    (h : autoAdvance cfg i = some i') :
    ∃ step, cfg.steps[i]? = some step ∧
      ((step.type = TimelineStepType.tree ∧ cfg.loop = true ∧ i' = 0) ∨
       (step.type ≠ TimelineStepType.tree ∧ i' = i + 1)) := by
  unfold autoAdvance at h
  cases hg : cfg.steps[i]? with
  | none => rw [hg] at h; exact Option.noConfusion h
  | some st =>
      rw [hg] at h
      dsimp only at h
      refine ⟨st, rfl, ?_⟩
      split_ifs at h with ht hl hr <;>
        first
          | exact Option.noConfusion h
          | exact Or.inl ⟨ht, by simpa using hl, (Option.some.inj h).symm⟩
          | exact Or.inr ⟨ht, (Option.some.inj h).symm⟩

/-- C2.  `playStep(i)` with an in-range index publishes
`{isPlaying: true, currentStepIndex: i, currentStep: steps[i],
progress: 0}` without invoking `onComplete`; a completed non-`tree` step
plays `i + 1`; and an out-of-range index or an absent config resets the
state and invokes `onComplete`. -/
theorem C2_playStep_order :
    (∀ (cfg : TimelineConfig) (pc : ℕ) (i : ℤ), 0 ≤ i → i < (cfg.steps.length : ℤ) →
        ∃ s, cfg.steps[i.toNat]? = some s ∧
          playStep (some cfg) pc i
            = ({ isPlaying := true, currentStepIndex := i, currentStep := some s,
                 progress := 0 }, pc, false)) ∧
    (∀ (cfg : TimelineConfig) (i : ℤ) (step : TimelineStep) (st : TimelineState) (pc : ℕ),
        step.type ≠ TimelineStepType.tree →
        completeTick cfg i step st pc = playStep (some cfg) pc (i + 1)) ∧
    (∀ (cfg : Option TimelineConfig) (pc : ℕ) (i : ℤ),
        (cfg = none ∨ ∃ c, cfg = some c ∧ (i < 0 ∨ (c.steps.length : ℤ) ≤ i)) →
        playStep cfg pc i = (resetTimelineState, pc, true)) := by
  refine ⟨?_, ?_, ?_⟩
  · intro cfg pc i h0 hlen
    have hlt : i.toNat < cfg.steps.length := by omega
    refine ⟨cfg.steps[i.toNat], ?_, ?_⟩
    · exact List.getElem?_eq_getElem hlt
    · simp only [playStep]
      rw [if_neg (by omega : ¬ (i < 0 ∨ (cfg.steps.length : ℤ) ≤ i)),
        List.getElem?_eq_getElem hlt]
  · intro cfg i step st pc h
    simp only [completeTick]
    rw [if_neg h]
  · intro cfg pc i h
    rcases h with rfl | ⟨c, rfl, hc⟩
    · rfl
    · simp only [playStep]
      rw [if_pos hc]

/-- Witness for `C2_playStep_order` at a one-step config. -/
theorem C2_playStep_order_witness :
    (0 : ℤ) ≤ 0 ∧
    (0 : ℤ) < ((⟨true, true, false, [⟨TimelineStepType.intro, 1000, 0⟩]⟩ :
        TimelineConfig).steps.length : ℤ) ∧
    (∃ s, (⟨true, true, false, [⟨TimelineStepType.intro, 1000, 0⟩]⟩ :
        TimelineConfig).steps[(0 : ℤ).toNat]? = some s ∧
      playStep (some ⟨true, true, false, [⟨TimelineStepType.intro, 1000, 0⟩]⟩) 0 0
        = ({ isPlaying := true, currentStepIndex := 0, currentStep := some s,
             progress := 0 }, 0, false)) ∧
    (⟨TimelineStepType.intro, 1000, 0⟩ : TimelineStep).type ≠ TimelineStepType.tree ∧
    completeTick ⟨true, true, false, [⟨TimelineStepType.intro, 1000, 0⟩]⟩ 5
        ⟨TimelineStepType.intro, 1000, 0⟩ resetTimelineState 0
      = playStep (some ⟨true, true, false, [⟨TimelineStepType.intro, 1000, 0⟩]⟩) 0 (5 + 1) ∧
    playStep none 0 0 = (resetTimelineState, 0, true) :=
  ⟨le_refl 0, by norm_num,
   C2_playStep_order.1 ⟨true, true, false, [⟨TimelineStepType.intro, 1000, 0⟩]⟩ 0 0
     (le_refl 0) (by norm_num),
   by decide,
   C2_playStep_order.2.1 ⟨true, true, false, [⟨TimelineStepType.intro, 1000, 0⟩]⟩ 5
     ⟨TimelineStepType.intro, 1000, 0⟩ resetTimelineState 0 (by decide),
   C2_playStep_order.2.2 none 0 0 (Or.inl rfl)⟩

/-- C6.  A completed `tree` step restarts playback at step 0 with the
photo counter reset when `loop` is set, and otherwise stops with
`progress` left at 1 and `onComplete` invoked; and automatic advancement
never plays an index greater than that of a completed `tree` step. -/
theorem C6_tree_completion :
    (∀ (cfg : TimelineConfig) (i : ℤ) (step : TimelineStep) (st : TimelineState) (pc : ℕ),
        step.type = TimelineStepType.tree → cfg.loop = true →
        completeTick cfg i step st pc = playStep (some cfg) 0 0) ∧
    (∀ (cfg : TimelineConfig) (i : ℤ) (step : TimelineStep) (st : TimelineState) (pc : ℕ),
        step.type = TimelineStepType.tree → cfg.loop = false →
        completeTick cfg i step st pc
          = ({ st with isPlaying := false, progress := 1 }, pc, true)) ∧
    (∀ (cfg : TimelineConfig) (k : ℕ) (step : TimelineStep),
        cfg.steps[k]? = some step → step.type = TimelineStepType.tree →
        ∀ (n i : ℕ), i ≤ k → ∀ j, autoTraceN cfg n (some i) = some j → j ≤ k) := by
  refine ⟨?_, ?_, ?_⟩
  · intro cfg i step st pc ht hl
    simp [completeTick, ht, hl]
  · intro cfg i step st pc ht hl
    simp [completeTick, ht, hl]
  · intro cfg k step hk htree n
    induction n with
    | zero =>
        intro i hi j hj
        have : i = j := Option.some.inj hj
        omega
    | succ m ih =>
        intro i hi j hj
        rw [show m + 1 = Nat.succ m from rfl, autoTraceN] at hj
        cases haa : autoAdvance cfg i with
        | none =>
            rw [show (some i).bind (autoAdvance cfg) = autoAdvance cfg i from rfl,
              haa, autoTraceN_none] at hj
            exact Option.noConfusion hj
        | some i' =>
            rw [show (some i).bind (autoAdvance cfg) = autoAdvance cfg i from rfl,
              haa] at hj
            obtain ⟨st', hget, hcase⟩ := autoAdvance_cases cfg i i' haa
            rcases hcase with ⟨_, _, rfl⟩ | ⟨hnt, rfl⟩
            · exact ih 0 (by omega) j hj
            · have hik : i < k := by
                rcases lt_or_eq_of_le hi with h | h
                · exact h
                · subst h
                  rw [hk] at hget
                  have heq : step = st' := Option.some.inj hget
                  exact absurd (heq ▸ htree) hnt
              exact ih (i + 1) (by omega) j hj


/-- Witness for `C6_tree_completion` at one-step tree configs. -/
theorem C6_tree_completion_witness :
    (⟨TimelineStepType.tree, 1000, 0⟩ : TimelineStep).type = TimelineStepType.tree ∧
    (⟨true, true, true, [⟨TimelineStepType.tree, 1000, 0⟩]⟩ : TimelineConfig).loop = true ∧
    completeTick ⟨true, true, true, [⟨TimelineStepType.tree, 1000, 0⟩]⟩ 0
        ⟨TimelineStepType.tree, 1000, 0⟩ resetTimelineState 7
      = playStep (some ⟨true, true, true, [⟨TimelineStepType.tree, 1000, 0⟩]⟩) 0 0 ∧
    completeTick ⟨true, true, false, [⟨TimelineStepType.tree, 1000, 0⟩]⟩ 0
        ⟨TimelineStepType.tree, 1000, 0⟩ resetTimelineState 7
      = ({ resetTimelineState with isPlaying := false, progress := 1 }, 7, true) ∧
    (⟨true, true, true, [⟨TimelineStepType.tree, 1000, 0⟩]⟩ :
        TimelineConfig).steps[(0 : ℕ)]? = some ⟨TimelineStepType.tree, 1000, 0⟩ ∧
    autoTraceN ⟨true, true, true, [⟨TimelineStepType.tree, 1000, 0⟩]⟩ 1 (some 0) = some 0 ∧
    (0 : ℕ) ≤ 0 :=
  ⟨rfl, rfl,
   C6_tree_completion.1 ⟨true, true, true, [⟨TimelineStepType.tree, 1000, 0⟩]⟩ 0
     ⟨TimelineStepType.tree, 1000, 0⟩ resetTimelineState 7 rfl rfl,
   C6_tree_completion.2.1 ⟨true, true, false, [⟨TimelineStepType.tree, 1000, 0⟩]⟩ 0
     ⟨TimelineStepType.tree, 1000, 0⟩ resetTimelineState 7 rfl rfl,
   rfl, rfl,
   C6_tree_completion.2.2 ⟨true, true, true, [⟨TimelineStepType.tree, 1000, 0⟩]⟩ 0
     ⟨TimelineStepType.tree, 1000, 0⟩ rfl rfl 1 0 (le_refl 0) 0 rfl⟩

/-! ### `getTreePosition` (`utils/helpers.ts` lines 268-289)

JavaScript `x % 1` is the truncated remainder: the fractional part of `x`
with the sign of `x`.  It is modelled by `jsMod1`. -/

/-- JavaScript `x % 1`. -/
noncomputable def jsMod1 (x : ℝ) : ℝ :=
  if 0 ≤ x then Int.fract x else -(Int.fract (-x))

/-- `getTreePosition(seed1, seed2, customHeight, customRadius)` with both
seeds supplied (the deterministic branch of each `Math.random()`
fallback). -/
noncomputable def getTreePosition (seed1 seed2 h rBase : ℝ) : ℝ × ℝ × ℝ :=
  let r1 := seed1
  let r2 := seed2
  let r3 := jsMod1 (jsMod1 (Real.sin (seed1 * 12.9898 + seed2 * 78.233) * 43758.5453) + 1)
  let y := r1 * h - h / 2
  let normalizedY := (y + h / 2) / h
  let currentRadius := rBase * (1 - normalizedY)
  let theta := r2 * π * 2
  let r := Real.sqrt r3 * currentRadius
  (r * Real.cos theta, y, r * Real.sin theta)

lemma jsMod1_gt_neg_one (x : ℝ) : -1 < jsMod1 x := by
  unfold jsMod1
  split_ifs with h
  · have := Int.fract_nonneg x
    linarith
  · have := Int.fract_lt_one (-x)
    linarith

lemma jsMod1_nonneg_of_nonneg (x : ℝ) (h : 0 ≤ x) :
    0 ≤ jsMod1 x ∧ jsMod1 x < 1 := by
  unfold jsMod1
  rw [if_pos h]
  exact ⟨Int.fract_nonneg x, Int.fract_lt_one x⟩

/-- C9.  With seeds in `[0,1)` and positive dimensions, the returned point
lies inside the tree cone: `-h/2 ≤ y < h/2` and the horizontal distance is
at most `rBase * (1 - (y + h/2)/h)`. -/
theorem C9_getTreePosition_in_cone :
    ∀ (seed1 seed2 h rBase : ℝ), 0 ≤ seed1 → seed1 < 1 → 0 ≤ seed2 → seed2 < 1 →
      0 < h → 0 < rBase →
      -(h / 2) ≤ (getTreePosition seed1 seed2 h rBase).2.1 ∧
      (getTreePosition seed1 seed2 h rBase).2.1 < h / 2 ∧
      Real.sqrt ((getTreePosition seed1 seed2 h rBase).1 ^ 2 +
          (getTreePosition seed1 seed2 h rBase).2.2 ^ 2)
        ≤ rBase * (1 - ((getTreePosition seed1 seed2 h rBase).2.1 + h / 2) / h) := by
  intro s1 s2 h rB h1 h2 h3 h4 h5 h6
  have hsh : 0 ≤ s1 * h := mul_nonneg h1 h5.le
  have hsh1 : s1 * h < h := by nlinarith
  simp only [getTreePosition]
  refine ⟨by linarith, by linarith, ?_⟩
  have hnorm : ((s1 * h - h / 2) + h / 2) / h = s1 := by
    field_simp
  rw [hnorm]
  set r3 := jsMod1 (jsMod1 (Real.sin (s1 * 12.9898 + s2 * 78.233) * 43758.5453) + 1) with hr3
  have hr3b : 0 ≤ r3 ∧ r3 < 1 := by
    rw [hr3]
    exact jsMod1_nonneg_of_nonneg _
      (by linarith [jsMod1_gt_neg_one (Real.sin (s1 * 12.9898 + s2 * 78.233) * 43758.5453)])
  have hX : (0:ℝ) ≤ rB * (1 - s1) := mul_nonneg h6.le (by linarith)
  have hr : 0 ≤ Real.sqrt r3 * (rB * (1 - s1)) :=
    mul_nonneg (Real.sqrt_nonneg _) hX
  have hkey : (Real.sqrt r3 * (rB * (1 - s1)) * Real.cos (s2 * π * 2)) ^ 2 +
      (Real.sqrt r3 * (rB * (1 - s1)) * Real.sin (s2 * π * 2)) ^ 2
        = (Real.sqrt r3 * (rB * (1 - s1))) ^ 2 := by
    have htrig := Real.sin_sq_add_cos_sq (s2 * π * 2)
    nlinarith [htrig]
  rw [hkey, Real.sqrt_sq hr]
  have hsq1 : Real.sqrt r3 ≤ 1 := Real.sqrt_le_one.mpr hr3b.2.le
  nlinarith [Real.sqrt_nonneg r3, hX]

/-- Witness for `C9_getTreePosition_in_cone` at seeds `0, 0` and the
default-like dimensions `h = 16`, `rBase = 7`. -/
theorem C9_getTreePosition_in_cone_witness :
    (0 : ℝ) ≤ 0 ∧ (0 : ℝ) < 1 ∧ (0 : ℝ) < 16 ∧ (0 : ℝ) < 7 ∧
    (-(16 / 2 : ℝ) ≤ (getTreePosition 0 0 16 7).2.1 ∧
      (getTreePosition 0 0 16 7).2.1 < 16 / 2 ∧
      Real.sqrt ((getTreePosition 0 0 16 7).1 ^ 2 + (getTreePosition 0 0 16 7).2.2 ^ 2)
        ≤ 7 * (1 - ((getTreePosition 0 0 16 7).2.1 + 16 / 2) / 16)) :=
  ⟨le_refl 0, by norm_num, by norm_num, by norm_num,
   C9_getTreePosition_in_cone 0 0 16 7 (le_refl 0) (by norm_num) (le_refl 0)
     (by norm_num) (by norm_num) (by norm_num)⟩

/-! ### Voice extraction and restoration (`shareService`, lines 856-888)

The config objects are JSON values; only the fields these two functions
touch are modelled explicitly (`type`, `audioData`, `audioUrl` of each
timeline step, and the optional `timeline.steps` path), with a `rest`
field standing for all the other (untouched) fields.
`JSON.parse(JSON.stringify(x))` is the identity on such plain data and is
not modelled separately.

The url marker is the JS template `` `voice:${index}` ``.  Its parsing,
`parseInt(step.audioUrl.split(':')[1])`, is modelled on the character
list: under the guard `audioUrl?.startsWith('voice:')` the segment
`split(':')[1]` is the run of characters after the six characters
`voice:` up to the next `:`, and `parseInt` reads the maximal leading
digit run of it, stopping at any non-digit — `:` included — so the
composition equals reading the maximal leading digit run after dropping
the six marker characters. -/

/-- The decimal digit characters of `n`, most significant first: the list
produced by `Nat.toDigits 10`/`Nat.repr`. -/
def decChars (n : ℕ) : List Char :=
  if _h : n < 10 then [Nat.digitChar n]
  else decChars (n / 10) ++ [Nat.digitChar (n % 10)]
  decreasing_by exact Nat.div_lt_self (by omega) (by omega)

lemma decChars_lt (n : ℕ) (h : n < 10) : decChars n = [Nat.digitChar n] := by
  unfold decChars
  rw [dif_pos h]

lemma decChars_ge (n : ℕ) (h : ¬ n < 10) :
    decChars n = decChars (n / 10) ++ [Nat.digitChar (n % 10)] := by
  conv_lhs => unfold decChars
  rw [dif_neg h]

lemma digitChar_isDigit (m : ℕ) (h : m < 10) : (Nat.digitChar m).isDigit = true := by
  interval_cases m <;> decide

lemma digitChar_val (m : ℕ) (h : m < 10) :
    (Nat.digitChar m).toNat - '0'.toNat = m := by
  interval_cases m <;> decide

lemma decChars_all_digits (n : ℕ) : ∀ c ∈ decChars n, c.isDigit = true := by
  induction n using Nat.strong_induction_on with
  | _ n ih =>
      by_cases h : n < 10
      · rw [decChars_lt n h]
        intro c hc
        rw [List.mem_singleton.mp hc]
        exact digitChar_isDigit n h
      · rw [decChars_ge n h]
        intro c hc
        rcases List.mem_append.mp hc with hc | hc
        · exact ih (n / 10) (Nat.div_lt_self (by omega) (by omega)) c hc
        · rw [List.mem_singleton.mp hc]
          exact digitChar_isDigit _ (Nat.mod_lt _ (by omega))

lemma decChars_ne_nil (n : ℕ) : decChars n ≠ [] := by
  by_cases h : n < 10
  · rw [decChars_lt n h]; simp
  · rw [decChars_ge n h]; simp

lemma foldl_decChars (n : ℕ) :
    (decChars n).foldl (fun m c => m * 10 + (c.toNat - '0'.toNat)) 0 = n := by
  induction n using Nat.strong_induction_on with
  | _ n ih =>
      by_cases h : n < 10
      · rw [decChars_lt n h]
        simp only [List.foldl_cons, List.foldl_nil, Nat.zero_mul, Nat.zero_add]
        exact digitChar_val n h
      · rw [decChars_ge n h, List.foldl_append,
          ih (n / 10) (Nat.div_lt_self (by omega) (by omega))]
        simp only [List.foldl_cons, List.foldl_nil]
        rw [digitChar_val _ (Nat.mod_lt _ (by omega))]
        omega

lemma toDigitsCore_eq_decChars :
    ∀ (fuel n : ℕ) (ds : List Char), n < fuel →
      Nat.toDigitsCore 10 fuel n ds = decChars n ++ ds := by
  intro fuel
  induction fuel with
  | zero => intro n ds h; omega
  | succ f ih =>
      intro n ds h
      simp only [Nat.toDigitsCore]
      by_cases h10 : n / 10 = 0
      · rw [if_pos h10, decChars_lt n (by omega), Nat.mod_eq_of_lt (by omega)]
        rfl
      · rw [if_neg h10, ih (n / 10) _ (by omega), decChars_ge n (by omega)]
        simp [List.append_assoc]

lemma repr_data (n : ℕ) : (Nat.repr n).data = decChars n := by
  show (List.asString (Nat.toDigitsCore 10 (n + 1) n [])).data = decChars n
  rw [toDigitsCore_eq_decChars (n + 1) n [] (by omega)]
  simp [List.asString]

/-- `url.startsWith(prefixStr)` on the character lists. -/
def jsStartsWith (s pre : String) : Bool := pre.data.isPrefixOf s.data

/-- `parseInt` on a character list: the maximal leading digit run, `none`
(JS `NaN`) when there is none. -/
def jsParseDecimal (l : List Char) : Option ℕ :=
  let ds := l.takeWhile Char.isDigit
  if ds = [] then none
  else some (ds.foldl (fun m c => m * 10 + (c.toNat - '0'.toNat)) 0)

/-- `parseInt(url.split(':')[1])` for urls passing the `voice:` guard:
drop the six characters of `voice:` and read the leading digit run. -/
def parseVoiceIndex (url : String) : Option ℕ := jsParseDecimal (url.data.drop 6)

lemma takeWhile_of_all :
    ∀ (l : List Char), (∀ c ∈ l, Char.isDigit c = true) →
      l.takeWhile Char.isDigit = l := by
  intro l
  induction l with
  | nil => intro _; rfl
  | cons c t ih =>
      intro h
      rw [List.takeWhile_cons_of_pos (h c (List.mem_cons_self c t)),
        ih (fun x hx => h x (List.mem_cons_of_mem c hx))]

lemma parseVoiceIndex_voiceUrl (i : ℕ) :
    parseVoiceIndex ("voice:" ++ toString i) = some i := by
  unfold parseVoiceIndex jsParseDecimal
  have hdata : ("voice:" ++ toString i).data = "voice:".data ++ (Nat.repr i).data := rfl
  rw [hdata,
    show ("voice:".data ++ (Nat.repr i).data).drop 6 = (Nat.repr i).data from by
      rw [show (6 : ℕ) = ("voice:".data).length from by decide, List.drop_left],
    repr_data, takeWhile_of_all _ (decChars_all_digits i),
    if_neg (decChars_ne_nil i), foldl_decChars]

lemma startsWith_voiceUrl (i : ℕ) :
    jsStartsWith ("voice:" ++ toString i) "voice:" = true := by
  unfold jsStartsWith
  have hdata : ("voice:" ++ toString i).data = "voice:".data ++ (Nat.repr i).data := rfl
  rw [hdata, List.isPrefixOf_iff_prefix]
  exact List.prefix_append _ _

structure VoiceStep where
  type : String
  audioData : Option String
  audioUrl : Option String
  rest : String
  deriving DecidableEq, Repr

structure VoiceTimeline where
  steps : Option (List VoiceStep)
  rest : String
  deriving DecidableEq, Repr

structure VoiceConfig where
  timeline : Option VoiceTimeline
  rest : String
  deriving DecidableEq, Repr

/-- JS truthiness of a possibly-absent string: present and non-empty. -/
def strTruthy : Option String → Bool
  | some s => s != ""
  | none => false

/-- JS `a || b` on possibly-absent strings. -/
def jsOrString (a b : Option String) : Option String :=
  if strTruthy a then a else b

/-- The `timeline.steps.forEach` body of `extractVoiceDataFromConfig`
(lines 861-869), processing the steps from absolute index `i`: a voice
step with truthy `audioData` or `audioUrl` stores
`audioData || audioUrl || ''` at its index in `voiceUrls`, loses
`audioData` and gets `audioUrl = voice:index`; all other steps leave a
hole (`none`, JS `undefined`) at their index. -/
def extractVoiceSteps : ℕ → List VoiceStep → List VoiceStep × List (Option String)
  | _, [] => ([], [])
  | i, s :: others =>
      let tail := extractVoiceSteps (i + 1) others
      if s.type = "voice" ∧ (strTruthy s.audioData ∨ strTruthy s.audioUrl) then
        ({ s with audioData := none, audioUrl := some ("voice:" ++ toString i) } :: tail.1,
         jsOrString s.audioData (jsOrString s.audioUrl (some "")) :: tail.2)
      else (s :: tail.1, none :: tail.2)

/-- `extractVoiceDataFromConfig` (lines 856-871): returns
`(voiceUrls, cleanConfig)`. -/
def extractVoiceDataFromConfig (config : VoiceConfig) :
    List (Option String) × VoiceConfig :=
  match config.timeline with
  | none => ([], config)
  | some tl =>
      match tl.steps with
      | none => ([], config)
      | some steps =>
          ((extractVoiceSteps 0 steps).2,
           { config with
              timeline := some { tl with steps := some (extractVoiceSteps 0 steps).1 } })

/-- The per-step body of `restoreVoiceDataToConfig` (lines 877-886). -/
def restoreVoiceStep (voiceUrls : List (Option String)) (s : VoiceStep) : VoiceStep :=
  match s.audioUrl with
  | none => s
  | some url =>
      if s.type = "voice" ∧ jsStartsWith url "voice:" then
        match parseVoiceIndex url with
        | some idx =>
            if strTruthy (voiceUrls.getD idx none) then
              { s with audioUrl := voiceUrls.getD idx none }
            else s
        | none => s
      else s

/-- `restoreVoiceDataToConfig` (lines 873-888). -/
def restoreVoiceDataToConfig (config : VoiceConfig)
    (voiceUrls : List (Option String)) : VoiceConfig :=
  match config.timeline with
  | none => config
  | some tl =>
      match tl.steps with
      | none => config
      | some steps =>
          { config with
             timeline := some { tl with steps := some (steps.map (restoreVoiceStep voiceUrls)) } }

/-- Modelled from the claim's words: the expected round-trip result — the
original config in which each voice step loses `audioData` and gets
`audioUrl` equal to the original `audioData`, everything else unchanged. -/
def specVoiceRoundtripStep (s : VoiceStep) : VoiceStep :=
  if s.type = "voice" then { s with audioData := none, audioUrl := s.audioData } else s

/-- Modelled from the claim's words: the expected round-trip result at the
config level. -/
def specVoiceRoundtrip (config : VoiceConfig) : VoiceConfig :=
  match config.timeline with
  | none => config
  | some tl =>
      match tl.steps with
      | none => config
      | some steps =>
          { config with
             timeline := some { tl with steps := some (steps.map specVoiceRoundtripStep) } }

lemma restoreVoiceStep_non_voice (voiceUrls : List (Option String)) (s : VoiceStep)
    (h : ¬ s.type = "voice") : restoreVoiceStep voiceUrls s = s := by
  unfold restoreVoiceStep
  cases s.audioUrl with
  | none => rfl
  | some url =>
      dsimp only
      rw [if_neg (fun hc => h hc.1)]

lemma restore_extract_steps :
    ∀ (steps : List VoiceStep) (pad : List (Option String)),
      (∀ s ∈ steps, s.type = "voice" →
        (∃ d, s.audioData = some d ∧ d ≠ "") ∧ s.audioUrl = none) →
      (extractVoiceSteps pad.length steps).1.map
          (restoreVoiceStep (pad ++ (extractVoiceSteps pad.length steps).2))
        = steps.map specVoiceRoundtripStep := by
  intro steps
  induction steps with
  | nil => intro pad _; rfl
  | cons s others ih =>
      intro pad hwf
      have hwf' : ∀ x ∈ others, x.type = "voice" →
          (∃ d, x.audioData = some d ∧ d ≠ "") ∧ x.audioUrl = none :=
        fun x hx => hwf x (List.mem_cons_of_mem s hx)
      by_cases hv : s.type = "voice"
      · obtain ⟨⟨d, hd, hdne⟩, hurl⟩ := hwf s (List.mem_cons_self s others) hv
        have htr : strTruthy s.audioData = true := by
          rw [hd]; simp [strTruthy, hdne]
        have hcond : s.type = "voice" ∧
            (strTruthy s.audioData ∨ strTruthy s.audioUrl) :=
          ⟨hv, Or.inl (by rw [htr])⟩
        have hu : jsOrString s.audioData (jsOrString s.audioUrl (some "")) = some d := by
          rw [jsOrString, if_pos (by rw [htr]), hd]
        simp only [extractVoiceSteps, if_pos hcond, hu, List.map_cons]
        refine List.cons_eq_cons.mpr ⟨?_, ?_⟩
        · -- head: restoring the marked step yields the spec step
          have hlook : (pad ++ some d :: (extractVoiceSteps (pad.length + 1) others).2).getD
              pad.length none = some d := by
            rw [List.getD_append_right _ _ _ _ (le_refl pad.length)]
            simp
          rw [restoreVoiceStep]
          dsimp only
          rw [if_pos ⟨hv, startsWith_voiceUrl pad.length⟩,
            parseVoiceIndex_voiceUrl pad.length]
          dsimp only
          rw [hlook, if_pos (show strTruthy (some d) = true by simp [strTruthy, hdne])]
          simp only [specVoiceRoundtripStep, if_pos hv, hd]
        · -- tail: shift the pad by one entry
          have hassoc : pad ++ some d :: (extractVoiceSteps (pad.length + 1) others).2
              = (pad ++ [some d]) ++ (extractVoiceSteps (pad.length + 1) others).2 := by
            simp
          have hlen : pad.length + 1 = (pad ++ [some d]).length := by simp
          rw [hassoc, hlen]
          exact ih (pad ++ [some d]) hwf'
      · have hcond : ¬ (s.type = "voice" ∧
            (strTruthy s.audioData ∨ strTruthy s.audioUrl)) :=
          fun hc => hv hc.1
        simp only [extractVoiceSteps, if_neg hcond, List.map_cons]
        refine List.cons_eq_cons.mpr ⟨?_, ?_⟩
        · rw [restoreVoiceStep_non_voice _ _ hv, specVoiceRoundtripStep, if_neg hv]
        · have hassoc : pad ++ none :: (extractVoiceSteps (pad.length + 1) others).2
              = (pad ++ [none]) ++ (extractVoiceSteps (pad.length + 1) others).2 := by
            simp
          have hlen : pad.length + 1 = (pad ++ [(none : Option String)]).length := by simp
          rw [hassoc, hlen]
          exact ih (pad ++ [none]) hwf'

/-- C10.  For configs whose voice steps each carry a non-empty
`audioData` and no `audioUrl`, extracting and then restoring with the
extracted `voiceUrls` yields the original config except that each voice
step's `audioData` is removed and its `audioUrl` equals the original
`audioData`; all other steps and fields are unchanged. -/
theorem C10_voice_roundtrip :
    ∀ cfg : VoiceConfig,
      (∀ tl, cfg.timeline = some tl → ∀ steps, tl.steps = some steps →
        ∀ s ∈ steps, s.type = "voice" →
          (∃ d, s.audioData = some d ∧ d ≠ "") ∧ s.audioUrl = none) →
      restoreVoiceDataToConfig (extractVoiceDataFromConfig cfg).2
          (extractVoiceDataFromConfig cfg).1
        = specVoiceRoundtrip cfg := by
  intro cfg hwf
  rcases hcfg : cfg.timeline with _ | tl
  · simp [extractVoiceDataFromConfig, restoreVoiceDataToConfig, specVoiceRoundtrip, hcfg]
  · rcases hsteps : tl.steps with _ | steps
    · simp [extractVoiceDataFromConfig, restoreVoiceDataToConfig, specVoiceRoundtrip,
        hcfg, hsteps]
    · have hmain := restore_extract_steps steps []
        (fun s hs hv => hwf tl hcfg steps hsteps s hs hv)
      simp only [List.length_nil, List.nil_append] at hmain
      simp [extractVoiceDataFromConfig, restoreVoiceDataToConfig, specVoiceRoundtrip,
        hcfg, hsteps, hmain]

/-- Witness for `C10_voice_roundtrip` at a one-voice-step config. -/
theorem C10_voice_roundtrip_witness :
    (∀ tl, (⟨some ⟨some [⟨"voice", some "DATA", none, "x"⟩], "t"⟩, "c"⟩ :
          VoiceConfig).timeline = some tl →
      ∀ steps, tl.steps = some steps → ∀ s ∈ steps, s.type = "voice" →
        (∃ d, s.audioData = some d ∧ d ≠ "") ∧ s.audioUrl = none) ∧
    restoreVoiceDataToConfig
        (extractVoiceDataFromConfig
          ⟨some ⟨some [⟨"voice", some "DATA", none, "x"⟩], "t"⟩, "c"⟩).2
        (extractVoiceDataFromConfig
          ⟨some ⟨some [⟨"voice", some "DATA", none, "x"⟩], "t"⟩, "c"⟩).1
      = specVoiceRoundtrip ⟨some ⟨some [⟨"voice", some "DATA", none, "x"⟩], "t"⟩, "c"⟩ := by
  have hwf : ∀ tl, (⟨some ⟨some [⟨"voice", some "DATA", none, "x"⟩], "t"⟩, "c"⟩ :
      VoiceConfig).timeline = some tl →
      ∀ steps, tl.steps = some steps → ∀ s ∈ steps, s.type = "voice" →
        (∃ d, s.audioData = some d ∧ d ≠ "") ∧ s.audioUrl = none := by
    intro tl htl steps hsteps s hs _
    injection htl with htl
    subst htl
    injection hsteps with hsteps
    subst hsteps
    rw [List.mem_singleton.mp hs]
    exact ⟨⟨"DATA", rfl, by decide⟩, rfl⟩
  exact ⟨hwf, C10_voice_roundtrip _ hwf⟩
